import Mathlib

/-!
Verification of the conversational session core of `src/chatbot.py`
(graphrag-knowledge): startup prompt loading, model configuration, and
the session loop `invoke_graph`, shallowly embedded in Lean.

The agent (`graph`) is treated as an external capability: a function from
the posted message list to the stream of state snapshots it yields,
followed by an optional raised error. Console output is recorded as a
list of output events rather than rendered text.
-/

/-- A chat message, as the dictionaries `{"role": r, "content": c}`
appended by the session loop (src/chatbot.py line 58). -/
structure Message where
  role : String
  content : String
  deriving DecidableEq

/-- Python `str.lower()` as applied to the user input (line 55); on the
ASCII inputs relevant here it is character-wise lowercasing. -/
def pyLower (s : String) : String := ⟨s.data.map Char.toLower⟩

/-- Outcome of the startup `open("prompt.txt", "r")` / `f.read()`:
the file content, a FileNotFoundError, or any other OS error. -/
inductive FileReadResult where
  | content (s : String)
  | notFound
  | otherError (e : String)
  deriving DecidableEq

/-- The built-in default prompt (lines 30-32), verbatim including the
indentation of the triple-quoted literal. -/
def defaultPrompt : String :=
  "You are a helpful assistant that can answer questions about the knowledge base.\n    Use the tools provided to fetch information from the knowledge base.\n    If you don't know the answer, say \"I don't know\"."

/-- The module-level `try/except FileNotFoundError` that sets `PROMPT`
(lines 26-32): the file content when the read succeeds, the built-in
default on FileNotFoundError; any other error propagates uncaught. -/
def PROMPT : FileReadResult → Except String String
  | .content s => .ok s
  | .notFound => .ok defaultPrompt
  | .otherError e => .error e

/-- `os.getenv(name, default)`: the variable's value when set, else the
hardcoded fallback. -/
def getenv (env : String → Option String) (name dflt : String) : String :=
  (env name).getD dflt

/-- The three settings handed to `init_chat_model`. -/
structure LLMConfig where
  model : String
  base_url : String
  api_key : String
  deriving DecidableEq

/-- The model configuration assembled in `create_chatbot` (lines 37-41),
as a function of the process environment. -/
def create_chatbot (env : String → Option String) : LLMConfig :=
  { model := getenv env "LLM_API_MODEL" "anthropic:claude-4-sonnet-latest",
    base_url := getenv env "LLM_API_URL" "http://localhost:8080",
    api_key := getenv env "LLM_API_KEY" "test" }

/-- One streamed state snapshot (`event` on line 59): it carries the
message list accumulated so far. -/
structure Snapshot where
  messages : List Message
  deriving DecidableEq

/-- One console output event: a `print(...)` of a string, or a
`message.pretty_print()` of one message. -/
inductive Output where
  | printed (s : String)
  | prettyPrinted (m : Message)
  deriving DecidableEq

/-- An error raised inside the loop body: the IndexError from
`event["messages"][-1]` on an empty list, or an error raised by the
streamed invocation itself. -/
inductive PyError where
  | indexError
  | streamError (e : String)
  deriving DecidableEq

/-- What one call to `graph.astream(...)` yields: a finite sequence of
snapshots, then optionally an error raised after the last yielded one. -/
structure AgentStream where
  snapshots : List Snapshot
  failure : Option String
  deriving DecidableEq

/-- The compiled agent, modelled as a function from the posted message
list (`{"messages": messages}` on line 59) to the stream it yields. -/
def Agent : Type := List Message → AgentStream

/-- The body of the `async for` loop (line 60): for each snapshot in
order, `event["messages"][-1].pretty_print()`; indexing `[-1]` on an
empty list raises IndexError and stops the iteration. Returns the
outputs produced and the error, if one was raised. -/
def printSnapshots : List Snapshot → List Output × Option PyError
  | [] => ([], none)
  | s :: rest =>
    match s.messages.getLast? with
    | none => ([], some PyError.indexError)
    | some m =>
      let r := printSnapshots rest
      (Output.prettyPrinted m :: r.1, r.2)

/-- Consuming one streamed response to exhaustion: print each snapshot in
order; an IndexError from printing, or the stream's own failure raised
after its last snapshot, propagates. -/
def consumeStream (st : AgentStream) : List Output × Option PyError :=
  let r := printSnapshots st.snapshots
  match r.2 with
  | some e => (r.1, some e)
  | none => (r.1, st.failure.map PyError.streamError)

/-- The result of one iteration of the `while True` body (lines 54-60):
quit (break), continue with the extended history, or an uncaught error
after the history was extended. -/
inductive TurnResult where
  | quitTurn (outs : List Output)
  | continueTurn (outs : List Output) (hist : List Message)
  | errorTurn (outs : List Output) (hist : List Message) (e : PyError)
  deriving DecidableEq

/-- One iteration of the `while True` body on input `inp` with current
history `hist`: lowercase-compare against "quit" (no trimming, line 55);
on quit print "Exiting..." and break; otherwise append the user message,
invoke the agent with the full history, and consume its stream. -/
def runTurn (graph : Agent) (hist : List Message) (inp : String) : TurnResult :=
  if pyLower inp == "quit" then
    .quitTurn [Output.printed "Exiting..."]
  else
    let hist' := hist ++ [⟨"user", inp⟩]
    let r := consumeStream (graph hist')
    match r.2 with
    | some e => .errorTurn r.1 hist' e
    | none => .continueTurn r.1 hist'

/-- How a modelled run of the loop ended. -/
inductive RunOutcome where
  | quit
  | error (e : PyError)
  | inputExhausted
  deriving DecidableEq

/-- The observable result of a run of `invoke_graph` on a finite list of
input lines: the console outputs in order, the final history, the message
lists posted to the agent (one per non-quit turn, in order), and how the
run ended. -/
structure RunResult where
  outputs : List Output
  history : List Message
  invocations : List (List Message)
  outcome : RunOutcome
  deriving DecidableEq

/-- `invoke_graph` (lines 50-60) run on a finite list of input lines
starting from history `hist` (the code starts from `[]`): each line is
processed by `runTurn`; `quit` breaks the loop, an uncaught error ends
the run, and when the modelled input lines run out the loop is still
awaiting input (`inputExhausted`). -/
def invoke_graph (graph : Agent) : List String → List Message → RunResult
  | [], hist => ⟨[], hist, [], .inputExhausted⟩
  | inp :: rest, hist =>
    match runTurn graph hist inp with
    | .quitTurn outs => ⟨outs, hist, [], .quit⟩
    | .errorTurn outs hist' e => ⟨outs, hist', [hist'], .error e⟩
    | .continueTurn outs hist' =>
      let r := invoke_graph graph rest hist'
      ⟨outs ++ r.outputs, r.history, hist' :: r.invocations, r.outcome⟩

/-- The three loop states named by the specification. -/
inductive LoopState where
  | AWAITING_INPUT
  | STREAMING_RESPONSE
  | TERMINATED
  deriving DecidableEq

/-- The specification's transition relation on loop states. -/
def allowed : LoopState → LoopState → Bool
  | .AWAITING_INPUT, .STREAMING_RESPONSE => true
  | .STREAMING_RESPONSE, .AWAITING_INPUT => true
  | .AWAITING_INPUT, .TERMINATED => true
  | _, _ => false

/-- The sequence of states the loop passes through after the initial
AWAITING_INPUT, read off the structure of `invoke_graph`: quit enters
TERMINATED; a non-quit input enters STREAMING_RESPONSE and re-enters
AWAITING_INPUT only when the stream is consumed without an error. -/
def loopTrace (graph : Agent) : List String → List Message → List LoopState
  | [], _ => []
  | inp :: rest, hist =>
    if pyLower inp == "quit" then [.TERMINATED]
    else
      let hist' := hist ++ [⟨"user", inp⟩]
      match (consumeStream (graph hist')).2 with
      | some _ => [.STREAMING_RESPONSE]
      | none => .STREAMING_RESPONSE :: .AWAITING_INPUT :: loopTrace graph rest hist'

/-- Whitespace trimming, defined over the character list so it evaluates
in the kernel. Used only to state the specification's "trimmed" reading
of the quit test, which the code does not perform. -/
def trimChars (s : String) : String :=
  ⟨((s.data.dropWhile Char.isWhitespace).reverse.dropWhile Char.isWhitespace).reverse⟩

/-- The quit test as the specification words it (spec 4.3 step 2):
trimmed, case-insensitive comparison with "quit". To be compared with the
code's test in `runTurn`, which lowercases but never trims (line 55). -/
def specQuitCheck (s : String) : Bool := pyLower (trimChars s) == "quit"

/-- A concrete agent used for concrete runs: it yields one snapshot
holding exactly the posted history, and never fails. -/
def g0 : Agent := fun h => ⟨[⟨h⟩], none⟩

/-- A concrete agent whose stream raises an error before yielding any
snapshot. -/
def gBoom : Agent := fun _ => ⟨[], some "boom"⟩

/-- A concrete agent that yields a single snapshot with an empty message
list. -/
def gEmpty : Agent := fun _ => ⟨[⟨[]⟩], none⟩

/-- When every snapshot carries at least one message, the `async for`
body prints exactly the last message of each snapshot, in order, and
raises nothing. -/
theorem printSnapshots_nonempty (snaps : List Snapshot)
    (h : ∀ s ∈ snaps, s.messages ≠ []) :
    printSnapshots snaps =
      (snaps.map (fun s => Output.prettyPrinted (s.messages.getLastD ⟨"", ""⟩)),
        none) := by
  induction snaps with
  | nil => rfl
  | cons s rest ih =>
    have hs : s.messages ≠ [] := h s (List.mem_cons_self s rest)
    cases hml : s.messages.getLast? with
    | none => exact absurd (List.getLast?_eq_none_iff.mp hml) hs
    | some m =>
      have hrest := ih (fun t ht => h t (List.mem_cons_of_mem s ht))
      simp [printSnapshots, hml, hrest, List.getLastD_eq_getLast?]

/-- If the snapshots reach one with an empty message list (all earlier
ones non-empty), printing raises IndexError right there: the outputs are
exactly those for the earlier snapshots. -/
theorem printSnapshots_empty_mid (pre post : List Snapshot) (s : Snapshot)
    (hs : s.messages = []) (hpre : ∀ t ∈ pre, t.messages ≠ []) :
    printSnapshots (pre ++ s :: post) =
      (pre.map (fun t => Output.prettyPrinted (t.messages.getLastD ⟨"", ""⟩)),
        some PyError.indexError) := by
  induction pre with
  | nil => simp [printSnapshots, hs]
  | cons t rest ih =>
    have ht : t.messages ≠ [] := hpre t (List.mem_cons_self t rest)
    cases hml : t.messages.getLast? with
    | none => exact absurd (List.getLast?_eq_none_iff.mp hml) ht
    | some m =>
      have hrest := ih (fun u hu => hpre u (List.mem_cons_of_mem t hu))
      simp [printSnapshots, hml, hrest, List.getLastD_eq_getLast?]

/-- The outputs of consuming a stream are those of printing its
snapshots, whether or not an error follows. -/
theorem consumeStream_fst (st : AgentStream) :
    (consumeStream st).1 = (printSnapshots st.snapshots).1 := by
  unfold consumeStream
  cases h : (printSnapshots st.snapshots).2 <;> simp [h]

/-- Consuming a stream whose snapshots all carry at least one message:
every last message is printed, and only the stream's own failure, if any,
propagates. -/
theorem consumeStream_ok (st : AgentStream)
    (h : ∀ s ∈ st.snapshots, s.messages ≠ []) :
    consumeStream st =
      (st.snapshots.map (fun s => Output.prettyPrinted (s.messages.getLastD ⟨"", ""⟩)),
        st.failure.map PyError.streamError) := by
  simp [consumeStream, printSnapshots_nonempty st.snapshots h]

/-- Across a whole run the loop only ever extends the history at the
end. -/
theorem invoke_graph_history_mono (graph : Agent) (inps : List String)
    (hist : List Message) :
    ∃ t, hist ++ t = (invoke_graph graph inps hist).history := by
  induction inps generalizing hist with
  | nil => exact ⟨[], by simp [invoke_graph]⟩
  | cons inp rest ih =>
    cases hq : pyLower inp == "quit" with
    | true => exact ⟨[], by simp [invoke_graph, runTurn, hq]⟩
    | false =>
      cases he : (consumeStream (graph (hist ++ [⟨"user", inp⟩]))).2 with
      | some e =>
        exact ⟨[⟨"user", inp⟩], by simp [invoke_graph, runTurn, hq, he]⟩
      | none =>
        obtain ⟨t, ht⟩ := ih (hist ++ [⟨"user", inp⟩])
        refine ⟨⟨"user", inp⟩ :: t, ?_⟩
        simp [invoke_graph, runTurn, hq, he, ← ht]

/-- Claim C1, counterexample: the input " quit" (leading space) satisfies
the specification's trimmed, case-insensitive quit test, yet the loop
treats it as an ordinary message: it does not take the quit branch (it
runs a full streaming turn and is left awaiting further input), prints no
exit notice, and appends the input to the history. -/
theorem C1_counterexample :
    specQuitCheck " quit" = true ∧
    (invoke_graph g0 [" quit"] []).outcome = RunOutcome.inputExhausted ∧
    (invoke_graph g0 [" quit"] []).history = [⟨"user", " quit"⟩] ∧
    (invoke_graph g0 [" quit"] []).outputs =
      [Output.prettyPrinted ⟨"user", " quit"⟩] := by
  refine ⟨by decide, by decide, by decide, by decide⟩

/-- Claim C1 (amended): for every input whose case-insensitive
(lowercased) form equals "quit" exactly — the code never trims, so
surrounding whitespace defeats the check — the loop prints the exit
notice and terminates, with no new message appended to the history. -/
theorem C1_quit_terminates (graph : Agent) (inp : String) (rest : List String)
    (hist : List Message) (h : pyLower inp = "quit") :
    invoke_graph graph (inp :: rest) hist =
      ⟨[Output.printed "Exiting..."], hist, [], RunOutcome.quit⟩ := by
  simp [invoke_graph, runTurn, h]

/-- Concrete instance of `C1_quit_terminates` at input "QUIT". -/
theorem C1_quit_terminates_witness :
    invoke_graph g0 ["QUIT"] [] =
      ⟨[Output.printed "Exiting..."], [], [], RunOutcome.quit⟩ :=
  C1_quit_terminates g0 "QUIT" [] [] (by decide)

/-- Claim C2: a non-quit input (including "") is appended to the history
as exactly one `{role := "user", content := inp}` entry before the agent
is invoked: the first agent invocation of the turn receives
`hist ++ [that entry]`, the history strictly grows, and the entry sits at
position `hist.length` with role "user" and the input verbatim. -/
theorem C2_user_message_appended (graph : Agent) (inp : String)
    (rest : List String) (hist : List Message)
    (h : (pyLower inp == "quit") = false) :
    (invoke_graph graph (inp :: rest) hist).invocations.head? =
        some (hist ++ [⟨"user", inp⟩]) ∧
    hist.length < (invoke_graph graph (inp :: rest) hist).history.length ∧
    (invoke_graph graph (inp :: rest) hist).history[hist.length]? =
        some ⟨"user", inp⟩ := by
  cases he : (consumeStream (graph (hist ++ [⟨"user", inp⟩]))).2 with
  | some e =>
    have hrun : invoke_graph graph (inp :: rest) hist =
        ⟨(consumeStream (graph (hist ++ [⟨"user", inp⟩]))).1,
          hist ++ [⟨"user", inp⟩], [hist ++ [⟨"user", inp⟩]],
          RunOutcome.error e⟩ := by
      simp [invoke_graph, runTurn, h, he]
    rw [hrun]
    refine ⟨rfl, by simp, List.getElem?_concat_length hist ⟨"user", inp⟩⟩
  | none =>
    obtain ⟨t, ht⟩ := invoke_graph_history_mono graph rest (hist ++ [⟨"user", inp⟩])
    have hrun : invoke_graph graph (inp :: rest) hist =
        ⟨(consumeStream (graph (hist ++ [⟨"user", inp⟩]))).1 ++
            (invoke_graph graph rest (hist ++ [⟨"user", inp⟩])).outputs,
          (invoke_graph graph rest (hist ++ [⟨"user", inp⟩])).history,
          (hist ++ [⟨"user", inp⟩]) ::
            (invoke_graph graph rest (hist ++ [⟨"user", inp⟩])).invocations,
          (invoke_graph graph rest (hist ++ [⟨"user", inp⟩])).outcome⟩ := by
      simp [invoke_graph, runTurn, h, he]
    rw [hrun]
    refine ⟨rfl, ?_, ?_⟩
    · rw [← ht]
      simp
    · rw [← ht, List.getElem?_append_left (by simp)]
      exact List.getElem?_concat_length hist ⟨"user", inp⟩

/-- Concrete instance of `C2_user_message_appended` at input "Hello". -/
theorem C2_user_message_appended_witness :
    (invoke_graph g0 ["Hello"] []).invocations.head? =
        some [⟨"user", "Hello"⟩] ∧
    ([] : List Message).length < (invoke_graph g0 ["Hello"] []).history.length ∧
    (invoke_graph g0 ["Hello"] []).history[([] : List Message).length]? =
        some ⟨"user", "Hello"⟩ :=
  C2_user_message_appended g0 "Hello" [] [] (by decide)

/-- Claim C3: the history is append-only across every run: the starting
history, each message list posted to the agent in turn order, and the
final history form a chain in which each is the previous one extended
only at the end — no existing entry is mutated, reordered, or deleted. -/
theorem C3_history_append_only (graph : Agent) (inps : List String)
    (hist : List Message) :
    List.Chain' (fun a b : List Message => ∃ t, a ++ t = b)
      (hist :: (invoke_graph graph inps hist).invocations ++
        [(invoke_graph graph inps hist).history]) := by
  induction inps generalizing hist with
  | nil =>
    simp [invoke_graph]
  | cons inp rest ih =>
    cases hq : pyLower inp == "quit" with
    | true =>
      simp [invoke_graph, runTurn, hq]
    | false =>
      cases he : (consumeStream (graph (hist ++ [⟨"user", inp⟩]))).2 with
      | some e =>
        have hrun : invoke_graph graph (inp :: rest) hist =
            ⟨(consumeStream (graph (hist ++ [⟨"user", inp⟩]))).1,
              hist ++ [⟨"user", inp⟩], [hist ++ [⟨"user", inp⟩]],
              RunOutcome.error e⟩ := by
          simp [invoke_graph, runTurn, hq, he]
        rw [hrun]
        simp only [List.cons_append, List.singleton_append]
        exact List.chain'_cons.mpr ⟨⟨[⟨"user", inp⟩], rfl⟩,
          List.chain'_cons.mpr ⟨⟨[], by simp⟩, List.chain'_singleton _⟩⟩
      | none =>
        have hrun : invoke_graph graph (inp :: rest) hist =
            ⟨(consumeStream (graph (hist ++ [⟨"user", inp⟩]))).1 ++
                (invoke_graph graph rest (hist ++ [⟨"user", inp⟩])).outputs,
              (invoke_graph graph rest (hist ++ [⟨"user", inp⟩])).history,
              (hist ++ [⟨"user", inp⟩]) ::
                (invoke_graph graph rest (hist ++ [⟨"user", inp⟩])).invocations,
              (invoke_graph graph rest (hist ++ [⟨"user", inp⟩])).outcome⟩ := by
          simp [invoke_graph, runTurn, hq, he]
        rw [hrun]
        simp only [List.cons_append]
        exact List.chain'_cons.mpr ⟨⟨[⟨"user", inp⟩], rfl⟩,
          ih (hist ++ [(⟨"user", inp⟩ : Message)])⟩

/-- Claim C4: an error raised while streaming a turn's response is not
caught anywhere: the run ends with that error as its outcome, the
remaining input lines are never processed, and the failed turn is not
retried — the agent was invoked exactly once, with the history of the
failed turn left as the final history. -/
theorem C4_stream_error_fatal (graph : Agent) (inp : String)
    (rest : List String) (hist : List Message) (e : String)
    (hq : (pyLower inp == "quit") = false)
    (hsnaps : ∀ s ∈ (graph (hist ++ [⟨"user", inp⟩])).snapshots, s.messages ≠ [])
    (hfail : (graph (hist ++ [⟨"user", inp⟩])).failure = some e) :
    (invoke_graph graph (inp :: rest) hist).outcome =
        RunOutcome.error (PyError.streamError e) ∧
    (invoke_graph graph (inp :: rest) hist).invocations =
        [hist ++ [⟨"user", inp⟩]] ∧
    (invoke_graph graph (inp :: rest) hist).history =
        hist ++ [⟨"user", inp⟩] := by
  have hcs := consumeStream_ok (graph (hist ++ [⟨"user", inp⟩])) hsnaps
  have he : (consumeStream (graph (hist ++ [⟨"user", inp⟩]))).2 =
      some (PyError.streamError e) := by
    rw [hcs]
    simp [hfail]
  refine ⟨?_, ?_, ?_⟩ <;> simp [invoke_graph, runTurn, hq, he]

/-- Concrete instance of `C4_stream_error_fatal`: the stream of the first
turn raises "boom"; the second input line is never processed. -/
theorem C4_stream_error_fatal_witness :
    (invoke_graph gBoom ["hi", "later"] []).outcome =
        RunOutcome.error (PyError.streamError "boom") ∧
    (invoke_graph gBoom ["hi", "later"] []).invocations =
        [[⟨"user", "hi"⟩]] ∧
    (invoke_graph gBoom ["hi", "later"] []).history = [⟨"user", "hi"⟩] :=
  C4_stream_error_fatal gBoom "hi" ["later"] [] "boom" (by decide)
    (by simp [gBoom]) rfl

/-- Claim C5: over one streamed turn, the outputs produced are exactly
one `pretty_print` of the most recent (last) message of each snapshot, in
snapshot order — nothing else from any snapshot is printed. Stated for
every stream whose snapshots each carry at least one message. -/
theorem C5_prints_last_of_each_snapshot (st : AgentStream)
    (h : ∀ s ∈ st.snapshots, s.messages ≠ []) :
    (consumeStream st).1 =
      st.snapshots.map
        (fun s => Output.prettyPrinted (s.messages.getLastD ⟨"", ""⟩)) := by
  rw [consumeStream_fst, printSnapshots_nonempty st.snapshots h]

/-- Concrete instance of `C5_prints_last_of_each_snapshot`: a snapshot
with two messages prints its last message only. -/
theorem C5_prints_last_of_each_snapshot_witness :
    (consumeStream
        ⟨[⟨[⟨"user", "hi"⟩, ⟨"assistant", "hello"⟩]⟩], none⟩).1 =
      [Output.prettyPrinted ⟨"assistant", "hello"⟩] := by
  have := C5_prints_last_of_each_snapshot
    ⟨[⟨[⟨"user", "hi"⟩, ⟨"assistant", "hello"⟩]⟩], none⟩ (by decide)
  simpa using this

/-- Claim C6: with the prompt file absent the system prompt is the
built-in default text verbatim; with the prompt file present with content
`x` the system prompt is `x` exactly, unmutated. -/
theorem C6_prompt_verbatim :
    PROMPT FileReadResult.notFound = Except.ok defaultPrompt ∧
    ∀ x : String, PROMPT (FileReadResult.content x) = Except.ok x :=
  ⟨rfl, fun _ => rfl⟩

/-- Claim C7: the loop is strictly sequential and follows the
specification's state machine: starting from AWAITING_INPUT, every step
of the state trace is an allowed transition (AWAITING_INPUT →
STREAMING_RESPONSE on non-quit input, STREAMING_RESPONSE →
AWAITING_INPUT only when the stream completes, AWAITING_INPUT →
TERMINATED on quit); TERMINATED is reached exactly when the run ends via
quit; and on a non-quit turn whose stream completes, the turn's entire
stream output precedes every output of the remaining turns. -/
theorem C7_sequential_state_machine (graph : Agent) (inps : List String)
    (hist : List Message) :
    List.Chain (fun a b => allowed a b = true) LoopState.AWAITING_INPUT
        (loopTrace graph inps hist) ∧
    ((invoke_graph graph inps hist).outcome = RunOutcome.quit ↔
        LoopState.TERMINATED ∈ loopTrace graph inps hist) ∧
    (∀ inp rest, inps = inp :: rest → (pyLower inp == "quit") = false →
      (consumeStream (graph (hist ++ [⟨"user", inp⟩]))).2 = none →
      (invoke_graph graph inps hist).outputs =
        (consumeStream (graph (hist ++ [⟨"user", inp⟩]))).1 ++
          (invoke_graph graph rest (hist ++ [⟨"user", inp⟩])).outputs) := by
  induction inps generalizing hist with
  | nil =>
    refine ⟨List.Chain.nil, by simp [invoke_graph, loopTrace], ?_⟩
    intro inp rest heq
    cases heq
  | cons inp rest ih =>
    cases hq : pyLower inp == "quit" with
    | true =>
      refine ⟨?_, ?_, ?_⟩
      · simp only [loopTrace, hq, if_pos]
        exact List.Chain.cons rfl List.Chain.nil
      · simp [invoke_graph, runTurn, loopTrace, hq]
      · intro inp' rest' heq hq'
        injection heq with h1 h2
        subst h1
        rw [hq] at hq'
        cases hq'
    | false =>
      cases he : (consumeStream (graph (hist ++ [⟨"user", inp⟩]))).2 with
      | some e =>
        have htr : loopTrace graph (inp :: rest) hist =
            [LoopState.STREAMING_RESPONSE] := by
          simp [loopTrace, hq, he]
        refine ⟨?_, ?_, ?_⟩
        · rw [htr]
          exact List.Chain.cons rfl List.Chain.nil
        · rw [htr]
          simp [invoke_graph, runTurn, hq, he]
        · intro inp' rest' heq hq' hnone
          injection heq with h1 h2
          subst h1
          rw [he] at hnone
          cases hnone
      | none =>
        obtain ⟨ch, hiff, _⟩ := ih (hist ++ [⟨"user", inp⟩])
        have htr : loopTrace graph (inp :: rest) hist =
            LoopState.STREAMING_RESPONSE :: LoopState.AWAITING_INPUT ::
              loopTrace graph rest (hist ++ [⟨"user", inp⟩]) := by
          simp [loopTrace, hq, he]
        refine ⟨?_, ?_, ?_⟩
        · rw [htr]
          exact List.Chain.cons rfl (List.Chain.cons rfl ch)
        · rw [htr]
          have houtc : (invoke_graph graph (inp :: rest) hist).outcome =
              (invoke_graph graph rest (hist ++ [⟨"user", inp⟩])).outcome := by
            simp [invoke_graph, runTurn, hq, he]
          rw [houtc]
          simp only [List.mem_cons]
          rw [hiff]
          simp
        · intro inp' rest' heq hq' hnone
          injection heq with h1 h2
          subst h1
          subst h2
          simp [invoke_graph, runTurn, hq, he]

/-- Concrete instance of the sequencing part of
`C7_sequential_state_machine`: on input "Hello" the turn's stream output
precedes the outputs of the rest of the run. -/
theorem C7_sequential_state_machine_witness :
    (invoke_graph g0 ["Hello"] []).outputs =
      (consumeStream (g0 ([] ++ [⟨"user", "Hello"⟩]))).1 ++
        (invoke_graph g0 [] ([] ++ [⟨"user", "Hello"⟩])).outputs :=
  (C7_sequential_state_machine g0 ["Hello"] []).2.2 "Hello" [] rfl
    (by decide) (by decide)

/-- Claim C8: the model capability is configured from the three named
environment settings, each falling back to its hardcoded value when the
variable is unset — "anthropic:claude-4-sonnet-latest" for the model,
"http://localhost:8080" for the base URL, "test" for the credential — and
taking the variable's value verbatim when set. -/
theorem C8_env_config (env : String → Option String) :
    (env "LLM_API_MODEL" = none →
      (create_chatbot env).model = "anthropic:claude-4-sonnet-latest") ∧
    (env "LLM_API_URL" = none →
      (create_chatbot env).base_url = "http://localhost:8080") ∧
    (env "LLM_API_KEY" = none → (create_chatbot env).api_key = "test") ∧
    (∀ v, env "LLM_API_MODEL" = some v → (create_chatbot env).model = v) ∧
    (∀ v, env "LLM_API_URL" = some v → (create_chatbot env).base_url = v) ∧
    (∀ v, env "LLM_API_KEY" = some v → (create_chatbot env).api_key = v) := by
  refine ⟨?_, ?_, ?_, ?_, ?_, ?_⟩
  · intro h
    simp [create_chatbot, getenv, h]
  · intro h
    simp [create_chatbot, getenv, h]
  · intro h
    simp [create_chatbot, getenv, h]
  · intro v h
    simp [create_chatbot, getenv, h]
  · intro v h
    simp [create_chatbot, getenv, h]
  · intro v h
    simp [create_chatbot, getenv, h]

/-- Concrete instance of `C8_env_config`: an empty environment yields all
three fallbacks, and a set LLM_API_URL is taken verbatim. -/
theorem C8_env_config_witness :
    (create_chatbot (fun _ => none)).model =
        "anthropic:claude-4-sonnet-latest" ∧
    (create_chatbot (fun _ => none)).base_url = "http://localhost:8080" ∧
    (create_chatbot (fun _ => none)).api_key = "test" ∧
    (create_chatbot (fun _ => some "http://real:9999")).base_url =
        "http://real:9999" :=
  ⟨(C8_env_config (fun _ => none)).1 rfl,
    (C8_env_config (fun _ => none)).2.1 rfl,
    (C8_env_config (fun _ => none)).2.2.1 rfl,
    (C8_env_config (fun _ => some "http://real:9999")).2.2.2.2.1
      "http://real:9999" rfl⟩

/-- Claim C9: only FileNotFoundError triggers the built-in default; any
other error while reading the prompt file propagates as an error (startup
aborts) — and the only file states yielding the default prompt are the
file being absent or the file literally containing the default text. -/
theorem C9_other_read_errors_propagate :
    (∀ e : String, PROMPT (FileReadResult.otherError e) = Except.error e) ∧
    (∀ f : FileReadResult, PROMPT f = Except.ok defaultPrompt →
      f = FileReadResult.notFound ∨ f = FileReadResult.content defaultPrompt) := by
  refine ⟨fun _ => rfl, ?_⟩
  intro f h
  cases f with
  | content s =>
    right
    simp only [PROMPT, Except.ok.injEq] at h
    rw [h]
  | notFound => left; rfl
  | otherError e => simp [PROMPT] at h

/-- Concrete instance of the second part of
`C9_other_read_errors_propagate` at the absent-file state. -/
theorem C9_other_read_errors_propagate_witness :
    FileReadResult.notFound = FileReadResult.notFound ∨
    FileReadResult.notFound = FileReadResult.content defaultPrompt :=
  C9_other_read_errors_propagate.2 FileReadResult.notFound rfl

/-- Claim C10: the per-snapshot printing step indexes the last message
without a guard: as soon as the stream yields a snapshot whose message
list is empty, the run ends with an IndexError; and under the
precondition that every snapshot's message list is non-empty, printing
raises nothing. -/
theorem C10_empty_snapshot_index_error :
    (∀ (graph : Agent) (inp : String) (rest : List String)
        (hist : List Message) (pre post : List Snapshot) (s : Snapshot),
      (pyLower inp == "quit") = false →
      (graph (hist ++ [⟨"user", inp⟩])).snapshots = pre ++ s :: post →
      s.messages = [] →
      (∀ t ∈ pre, t.messages ≠ []) →
      (invoke_graph graph (inp :: rest) hist).outcome =
        RunOutcome.error PyError.indexError) ∧
    (∀ snaps : List Snapshot, (∀ t ∈ snaps, t.messages ≠ []) →
      (printSnapshots snaps).2 = none) := by
  constructor
  · intro graph inp rest hist pre post s hq hsnaps hs hpre
    have hp := printSnapshots_empty_mid pre post s hs hpre
    have he : (consumeStream (graph (hist ++ [⟨"user", inp⟩]))).2 =
        some PyError.indexError := by
      simp [consumeStream, hsnaps, hp]
    simp [invoke_graph, runTurn, hq, he]
  · intro snaps h
    simp [printSnapshots_nonempty snaps h]

/-- Concrete instance of `C10_empty_snapshot_index_error`: an agent that
yields one empty snapshot makes the run end with an IndexError. -/
theorem C10_empty_snapshot_index_error_witness :
    (invoke_graph gEmpty ["hi"] []).outcome =
      RunOutcome.error PyError.indexError :=
  C10_empty_snapshot_index_error.1 gEmpty "hi" [] [] [] [] ⟨[]⟩
    (by decide) rfl rfl (by simp)
